import Mathlib

/-!
# The e621 driver of libgallery

A shallow embedding of `drivers/e621/implementation.go` and the properties of
its four operations `Search`, `File`, `Comments` and `Name`.

Conventions of the embedding.

* A Go `uint64` is a `Nat`; the one place where the source does arithmetic on
  one (`page+1`) is reduced modulo `2^64`.
* A Go `error` is an `Option GoError`: `none` is the nil error.
* A Go slice is a `Slice`: the nil slice and an allocated slice are told apart.
* Everything the driver reaches outside its own file (the HTTP helpers of
  `drivers/internal`, `url.QueryEscape`, `time.Parse`) is a field of `Env`.
* Every operation returns its Go results together with the list of the
  outside calls it made, in program order (`Event`).
-/

namespace E621

/-! ## Values -/

/-- A Go error value. `httpError` is a `*internal.HTTPError`, which carries the
status code read by `Code()`; `other` is any error of another dynamic type
(a network error, a JSON decode error, a `*time.ParseError`). -/
inductive GoError where
  | httpError (code : Int) (text : String)
  | other (text : String)
  deriving DecidableEq, Repr

/-- The constant `http.StatusGone`. -/
def StatusGone : Int := 410

/-- A Go slice: `nil` is the nil slice, `vals xs` an allocated slice holding `xs`
(`vals []` is the empty, non-nil slice written `[]T{}` in Go). -/
inductive Slice (α : Type) where
  | nil : Slice α
  | vals : List α → Slice α
  deriving DecidableEq, Repr

/-- The elements of a slice, in order. -/
def Slice.toList {α : Type} : Slice α → List α
  | Slice.nil => []
  | Slice.vals xs => xs

/-- Whether the slice is the nil slice. -/
def Slice.isNil {α : Type} : Slice α → Bool
  | Slice.nil => true
  | Slice.vals _ => false

/-- Go's `append(s, x)`: the result is always allocated. -/
def Slice.append {α : Type} (s : Slice α) (x : α) : Slice α :=
  Slice.vals (s.toList ++ [x])

/-- A `time.Time` value: seconds and nanoseconds since the epoch and the zone
offset in seconds. -/
structure Time where
  sec : Int
  nsec : Nat
  offset : Int
  deriving DecidableEq, Repr

/-- An open `io.ReadCloser`, identified by the connection it reads from. -/
structure ReadCloser where
  conn : Nat
  deriving DecidableEq, Repr

/-- The nested `score` object of an upstream record. -/
structure score where
  Total : Int
  deriving DecidableEq, Repr

/-- The nested `file` object of an upstream record. -/
structure file where
  URL : String
  deriving DecidableEq, Repr

/-- Modelled from the spec: the type `tags` of the package is declared outside
`implementation.go`. The spec describes it as a categorised tag collection. -/
structure tags where
  categories : List (List String)
  deriving DecidableEq, Repr

/-- Modelled from the spec: `toTagString` is declared outside
`implementation.go`. The spec says the categorised collection "is flattened into
one space-joined string". -/
def tags.toTagString (t : tags) : String :=
  " ".intercalate t.categories.flatten

/-- The transport record `post`, with the fields `implementation.go` reads.
`ID` and `UploaderID` are `uint64`. -/
structure post where
  ID : Nat
  Rating : String
  CreatedAt : String
  Description : String
  Score : score
  Tags : tags
  UploaderID : Nat
  Source : String
  File : file
  deriving DecidableEq, Repr

/-- The domain record `libgallery.Post`, with the fields the driver fills. -/
structure Post where
  URL : String
  ID : String
  Date : Time
  NSFW : Bool
  Description : String
  Score : Int
  Tags : String
  Uploader : String
  Source : String
  deriving DecidableEq, Repr

/-! ## The outside world -/

/-- A call that leaves the driver, recorded in program order. -/
inductive Event where
  | limiterWait
  | GetJSON (url : String)
  | GetReadCloser (url : String)
  deriving DecidableEq, Repr

/-- What the driver calls but does not define.

* `QueryEscape` is `url.QueryEscape`;
* `timeParse` is `time.Parse(time.RFC3339, ·)`;
* `GetJSONPosts` is `internal.GetJSON` decoding into `struct { Posts []post }`;
* `GetJSONPost` is `internal.GetJSON` decoding into `struct { Post post }`;
* `GetReadCloser` is `internal.GetReadCloser`. -/
structure Env where
  QueryEscape : String → String
  timeParse : String → Except GoError Time
  GetJSONPosts : String → Except GoError (List post)
  GetJSONPost : String → Except GoError post
  GetReadCloser : String → Except GoError ReadCloser

/-- The decimal rendering done by `strconv.FormatUint(n, 10)`. -/
def FormatUint (n : Nat) : String := Nat.repr n

/-- The rendering of a `uint64` by the verb `%v` of `fmt.Sprintf`: decimal. -/
def fmtV (n : Nat) : String := Nat.repr n

/-! ## The driver -/

/-- The method `getJSON` (lines 32-35): wait on the limiter, then fetch. The
result of `Wait` is discarded by the source. -/
def getJSON {α : Type} (fetch : String → Except GoError α) (url : String) :
    Except GoError α × List Event :=
  (fetch url, [Event.limiterWait, Event.GetJSON url])

/-- The value `page+1` of line 39, computed on `uint64`. -/
def Search.upstreamPage (page : Nat) : Nat := (page + 1) % 2 ^ 64

/-- The request URL built at lines 38-39. -/
def Search.url (env : Env) (query : String) (page limit : Nat) : String :=
  "https://e621.net/posts.json?tags=" ++ env.QueryEscape query
    ++ "&page=" ++ fmtV (Search.upstreamPage page) ++ "&limit=" ++ fmtV limit

/-- The struct literal of lines 65-75. -/
def Search.mkPost (v : post) (ptime : Time) : Post :=
  { URL := "https://e621.net/posts/" ++ fmtV v.ID
    ID := FormatUint v.ID
    Date := ptime
    NSFW := (v.Rating != "s")
    Description := v.Description
    Score := v.Score.Total
    Tags := v.Tags.toTagString
    Uploader := FormatUint v.UploaderID
    Source := v.Source }

/-- The loop of lines 60-76 followed by the return of line 78. `libposts` is
the slice accumulated so far. The `err` returned at line 78 is the outer one,
which is nil once the loop is reached (the loop body declares its own). -/
def Search.loop (env : Env) : List post → Slice Post → Slice Post × Int × Option GoError
  | [], libposts => (libposts, 0, none)
  | v :: rest, libposts =>
    match env.timeParse v.CreatedAt with
    | Except.error err => (libposts, 0, some err)
    | Except.ok ptime => Search.loop env rest (libposts.append (Search.mkPost v ptime))

/-- The method `Search` (lines 37-79): the three Go results and the outside
calls made. -/
def Search (env : Env) (query : String) (page limit : Nat) :
    (Slice Post × Int × Option GoError) × List Event :=
  let url := Search.url env query page limit
  let r := getJSON env.GetJSONPosts url
  match r.1 with
  | Except.error err =>
    match err with
    | GoError.httpError code _ =>
      if code = StatusGone then ((Slice.vals [], 0, none), r.2)
      else ((Slice.vals [], 0, some err), r.2)
    | GoError.other _ => ((Slice.vals [], 0, some err), r.2)
  | Except.ok posts => (Search.loop env posts Slice.nil, r.2)

/-- The request URL built at lines 82-83. -/
def File.url (id : String) : String :=
  "https://e621.net/posts/" ++ id ++ ".json"

/-- The method `File` (lines 81-99): the two Go results and the outside calls
made. -/
def File (env : Env) (id : String) : (Slice ReadCloser × Option GoError) × List Event :=
  let r := getJSON env.GetJSONPost (File.url id)
  match r.1 with
  | Except.error err => ((Slice.vals [], some err), r.2)
  | Except.ok response =>
    match env.GetReadCloser response.File.URL with
    | Except.error err =>
      ((Slice.vals [], some err), r.2 ++ [Event.GetReadCloser response.File.URL])
    | Except.ok filereader =>
      ((Slice.vals [filereader], none), r.2 ++ [Event.GetReadCloser response.File.URL])

/-- The method `Comments` (lines 101-104), for any comment type. -/
def Comments (Comment : Type) (_id : String) : (Slice Comment × Option GoError) × List Event :=
  ((Slice.vals [], none), [])

/-- The method `Name` (lines 106-108). -/
def Name : String := "e621"

/-! ## Properties stated about runs -/

/-- Whether a run respects the limiter: read from left to right, every fetch
(`GetJSON` or `GetReadCloser`) finds a `limiterWait` issued since the fetch
before it. The flag says whether such a wait is pending. -/
def rateLimitedFrom : Bool → List Event → Bool
  | _, [] => true
  | _, Event.limiterWait :: es => rateLimitedFrom true es
  | waited, Event.GetJSON _ :: es => waited && rateLimitedFrom false es
  | waited, Event.GetReadCloser _ :: es => waited && rateLimitedFrom false es

/-- A run respects the limiter when it does so starting with no wait pending. -/
def rateLimited (es : List Event) : Bool := rateLimitedFrom false es

/-- The record `v` has a timestamp that parses and `p` is the struct built from
`v` at lines 65-75. -/
def Mapped (env : Env) (v : post) (p : Post) : Prop :=
  ∃ t, env.timeParse v.CreatedAt = Except.ok t ∧ p = Search.mkPost v t

/-! ## Concrete worlds -/

/-- A stand-in for `time.Parse(time.RFC3339, ·)` on concrete runs: it knows
one valid timestamp and rejects every other string. -/
def sampleParse (s : String) : Except GoError Time :=
  if s = "2020-01-02T03:04:05Z" then Except.ok { sec := 1577934245, nsec := 0, offset := 0 }
  else Except.error (GoError.other "parsing time: cannot parse as RFC3339")

/-- A world in which every listing fetch gives `listing`, every detail fetch
gives `detail` and every stream fetch gives `stream`. -/
def sampleEnv (listing : Except GoError (List post)) (detail : Except GoError post)
    (stream : Except GoError ReadCloser) : Env :=
  { QueryEscape := fun q => q
    timeParse := sampleParse
    GetJSONPosts := fun _ => listing
    GetJSONPost := fun _ => detail
    GetReadCloser := fun _ => stream }

/-- An upstream record with the given ID, rating code and timestamp. -/
def samplePost (id : Nat) (rating created : String) : post :=
  { ID := id
    Rating := rating
    CreatedAt := created
    Description := "a description"
    Score := { Total := -3 }
    Tags := { categories := [["cat", "dog"], ["artist"]] }
    UploaderID := 7
    Source := "https://example.org/src"
    File := { URL := "https://static1.e621.net/data/42.png" } }

/-- A listing of three records whose second timestamp is not RFC 3339. -/
def sampleListingBad : List post :=
  [samplePost 42 "s" "2020-01-02T03:04:05Z", samplePost 43 "q" "yesterday",
   samplePost 44 "e" "2020-01-02T03:04:05Z"]

/-- A listing of three records whose timestamps are all valid. -/
def sampleListingGood : List post :=
  [samplePost 42 "s" "2020-01-02T03:04:05Z", samplePost 43 "q" "2020-01-02T03:04:05Z",
   samplePost 44 "" "2020-01-02T03:04:05Z"]

/-- A world whose listing endpoint answers with the given records. -/
def sampleEnvListing (listing : List post) : Env :=
  sampleEnv (Except.ok listing) (Except.ok (samplePost 42 "s" "2020-01-02T03:04:05Z"))
    (Except.ok { conn := 1 })

/-- A world in which every fetch succeeds. -/
def sampleEnvOk : Env :=
  sampleEnv (Except.ok [samplePost 42 "s" "2020-01-02T03:04:05Z"])
    (Except.ok (samplePost 42 "s" "2020-01-02T03:04:05Z")) (Except.ok { conn := 1 })

/-! ## The timestamp parser of the Go library, and RFC 3339

`time.Parse` belongs to the Go standard library. `timeParseRFC3339` follows its
parser for the layout `2006-01-02T15:04:05Z07:00`, and `validRFC3339` follows the
grammar of RFC 3339, so that the two can be compared on concrete timestamps. The
theorems about `Search` hold for every `Env.timeParse`. -/

/-- The value of a decimal digit character. -/
def digitVal (c : Char) : Nat := c.toNat - '0'.toNat

/-- Go's `isLeap` of package `time`. -/
def isLeap (year : Nat) : Bool :=
  year % 4 == 0 && (year % 100 != 0 || year % 400 == 0)

/-- Go's `daysIn` of package `time`: the number of days of a month. -/
def daysIn (month year : Nat) : Nat :=
  if month = 2 then (if isLeap year then 29 else 28)
  else if month = 4 ∨ month = 6 ∨ month = 9 ∨ month = 11 then 30
  else 31

/-- The number of days from 1970-01-01 to the given civil date. -/
def daysFromCivil (year month day : Nat) : Int :=
  let y := year + 400 - (if month ≤ 2 then 1 else 0)
  let mp := (month + 9) % 12
  let doy := (153 * mp + 2) / 5 + day - 1
  let yoe := y % 400
  let doe := yoe * 365 + yoe / 4 - yoe / 100 + doy
  ((y / 400 * 146097 + doe : Nat) : Int) - 719468 - 146097

/-- Go's `getnum` of `time/format.go`: a one- or two-digit number at the head
of `s`; with `fixed` the number must have two digits. -/
def getnum (s : List Char) (fixed : Bool) : Option (Nat × List Char) :=
  match s with
  | [] => none
  | c0 :: rest =>
    if c0.isDigit then
      match rest with
      | [] => if fixed then none else some (digitVal c0, rest)
      | c1 :: rest1 =>
        if c1.isDigit then some (digitVal c0 * 10 + digitVal c1, rest1)
        else if fixed then none
        else some (digitVal c0, rest)
    else none

/-- Go's `skip` of `time/format.go` for a one-character separator of the
layout: the value must start with that character. -/
def skip (c : Char) : List Char → Option (List Char)
  | [] => none
  | d :: rest => if d = c then some rest else none

/-- The chunk `2006` of the layout: four digits. -/
def getLongYear : List Char → Option (Nat × List Char)
  | a :: b :: c :: d :: rest =>
    if a.isDigit && b.isDigit && c.isDigit && d.isDigit then
      some (((digitVal a * 10 + digitVal b) * 10 + digitVal c) * 10 + digitVal d, rest)
    else none
  | _ => none

/-- The value of a run of digits read from the left, continuing from `acc`. -/
def digitsValue (acc : Nat) : List Char → Nat
  | [] => acc
  | c :: cs => digitsValue (acc * 10 + digitVal c) cs

/-- The fractional second that Go accepts after the chunk `05` although the
layout has none: a period or a comma followed by at least one digit. Only the
first nine digits count (`parseNanoseconds`). Without such a fraction the value
is left as it is. -/
def getFraction (s : List Char) : Nat × List Char :=
  match s with
  | c :: d :: _ =>
    if (c = '.' ∨ c = ',') ∧ d.isDigit = true then
      let ds := (s.drop 1).takeWhile Char.isDigit
      let kept := ds.take 9
      (digitsValue 0 kept * 10 ^ (9 - kept.length), (s.drop 1).dropWhile Char.isDigit)
    else (0, s)
  | _ => (0, s)

/-- The chunk `Z07:00` of the layout: `Z`, or a sign, two digits, a colon and
two digits; Go refuses an hour above 24 and a minute above 60. The result is the
offset in seconds. -/
def getZone : List Char → Option (Int × List Char)
  | [] => none
  | 'Z' :: rest => some (0, rest)
  | sign :: h1 :: h2 :: c :: m1 :: m2 :: rest =>
    if c = ':' then
      match getnum [h1, h2] true, getnum [m1, m2] true with
      | some (hr, _), some (mm, _) =>
        if 24 < hr ∨ 60 < mm then none
        else if sign = '+' then some ((((hr * 60 + mm) * 60 : Nat) : Int), rest)
        else if sign = '-' then some (-(((hr * 60 + mm) * 60 : Nat) : Int), rest)
        else none
      | _, _ => none
    else none
  | _ => none

/-- The fields Go reads from a value under the layout
`2006-01-02T15:04:05Z07:00`, chunk by chunk, and the instant they denote. -/
def parseRFC3339Layout (value : List Char) : Option Time := do
  let (year, v) ← getLongYear value
  let v ← skip '-' v
  let (month, v) ← getnum v true
  if month = 0 ∨ 12 < month then none
  let v ← skip '-' v
  let (day, v) ← getnum v true
  let v ← skip 'T' v
  let (hour, v) ← getnum v false
  if 24 ≤ hour then none
  let v ← skip ':' v
  let (min, v) ← getnum v true
  if 60 ≤ min then none
  let v ← skip ':' v
  let (sec, v) ← getnum v true
  if 60 ≤ sec then none
  let (nsec, v) := getFraction v
  let (zoneOffset, v) ← getZone v
  if v ≠ [] then none
  if day < 1 ∨ daysIn month year < day then none
  pure { sec := daysFromCivil year month day * 86400
            + ((hour * 3600 + min * 60 + sec : Nat) : Int) - zoneOffset
         nsec := nsec
         offset := zoneOffset }

/-- Go's `time.Parse(time.RFC3339, value)`, after the parser of the standard
library (`time/format.go`, Go 1.17 and later): the value is accepted exactly when
the chunks of the layout read it to its end and the day exists in its month. The
error stands for the `*time.ParseError`; its text is not modelled. -/
def timeParseRFC3339 (value : String) : Except GoError Time :=
  match parseRFC3339Layout value.data with
  | some t => Except.ok t
  | none => Except.error (GoError.other "parsing time")

/-- The rule `2DIGIT` of RFC 3339. -/
def rfcTwoDigit : List Char → Option (Nat × List Char)
  | a :: b :: rest =>
    if a.isDigit && b.isDigit then some (digitVal a * 10 + digitVal b, rest) else none
  | _ => none

/-- The rule `4DIGIT` of RFC 3339. -/
def rfcFourDigit : List Char → Option (Nat × List Char)
  | a :: b :: c :: d :: rest =>
    if a.isDigit && b.isDigit && c.isDigit && d.isDigit then
      some (((digitVal a * 10 + digitVal b) * 10 + digitVal c) * 10 + digitVal d, rest)
    else none
  | _ => none

/-- One of the two given characters at the head of the input. -/
def rfcOneOf (c1 c2 : Char) : List Char → Option (List Char)
  | [] => none
  | d :: rest => if d = c1 ∨ d = c2 then some rest else none

/-- The optional rule `time-secfrac` of RFC 3339: a period and one or more
digits. -/
def rfcSecfrac : List Char → Option (List Char)
  | '.' :: d :: rest => if d.isDigit then some (rest.dropWhile Char.isDigit) else none
  | '.' :: [] => none
  | s => some s

/-- The rule `time-offset` of RFC 3339, in minutes east of UTC: `Z` (or `z`),
or a sign, an hour 00-23, a colon and a minute 00-59. -/
def rfcOffset (s : List Char) : Option (Int × List Char) :=
  match s with
  | [] => none
  | c :: rest =>
    if c = 'Z' ∨ c = 'z' then some (0, rest)
    else if c = '+' ∨ c = '-' then do
      let (hr, v) ← rfcTwoDigit rest
      let v ← rfcOneOf ':' ':' v
      let (mm, v) ← rfcTwoDigit v
      if 23 < hr ∨ 59 < mm then none
      pure (if c = '+' then ((hr * 60 + mm : Nat) : Int) else -((hr * 60 + mm : Nat) : Int), v)
    else none

/-- Whether a string is a `date-time` of RFC 3339 (section 5.6) with the field
ranges of that section: month 01-12, day within the month, hour 00-23, minute
00-59, second 00-59, or 60 for a leap second, which falls at 23:59:60 UTC.
`T` and `Z` may be in lower case. -/
def validRFC3339 (s : String) : Bool :=
  let r : Option Bool := do
    let (year, v) ← rfcFourDigit s.data
    let v ← rfcOneOf '-' '-' v
    let (month, v) ← rfcTwoDigit v
    let v ← rfcOneOf '-' '-' v
    let (day, v) ← rfcTwoDigit v
    let v ← rfcOneOf 'T' 't' v
    let (hour, v) ← rfcTwoDigit v
    let v ← rfcOneOf ':' ':' v
    let (min, v) ← rfcTwoDigit v
    let v ← rfcOneOf ':' ':' v
    let (sec, v) ← rfcTwoDigit v
    let v ← rfcSecfrac v
    let (offset, v) ← rfcOffset v
    pure (decide (v = [] ∧ 1 ≤ month ∧ month ≤ 12 ∧ 1 ≤ day ∧ day ≤ daysIn month year
      ∧ hour ≤ 23 ∧ min ≤ 59
      ∧ (sec ≤ 59 ∨ (sec = 60 ∧ (((hour * 60 + min : Nat) : Int) - offset) % 1440 = 1439))))
  r.getD false

/-- A world whose timestamps are parsed as the Go library parses them and
whose listing endpoint answers with the given records. -/
def goEnvListing (listing : List post) : Env :=
  { QueryEscape := fun q => q
    timeParse := timeParseRFC3339
    GetJSONPosts := fun _ => Except.ok listing
    GetJSONPost := fun _ => Except.error (GoError.other "unused")
    GetReadCloser := fun _ => Except.error (GoError.other "unused") }

/-- A listing of three records whose second timestamp has a one-digit hour,
which RFC 3339 does not allow. -/
def listingOneDigitHour : List post :=
  [samplePost 42 "s" "2020-01-02T03:04:05Z", samplePost 43 "q" "2020-01-02T3:04:05Z",
   samplePost 44 "e" "2020-01-02T03:04:05Z"]

/-- A listing of three records whose second timestamp is the leap second at the
end of 1990, the example of section 5.8 of RFC 3339. -/
def listingLeapSecond : List post :=
  [samplePost 42 "s" "2020-01-02T03:04:05Z", samplePost 43 "q" "1990-12-31T23:59:60Z",
   samplePost 44 "e" "2020-01-02T03:04:05Z"]

end E621

namespace E621

/-! ## Auxiliary facts -/

theorem Search_trace (env : Env) (query : String) (page limit : Nat) :
    (Search env query page limit).2 =
      [Event.limiterWait, Event.GetJSON (Search.url env query page limit)] := by
  unfold Search getJSON
  dsimp only
  split
  · split
    · split <;> rfl
    · rfl
  · rfl

theorem Search_of_ok (env : Env) (query : String) (page limit : Nat) (posts : List post)
    (h : env.GetJSONPosts (Search.url env query page limit) = Except.ok posts) :
    (Search env query page limit).1 = Search.loop env posts Slice.nil := by
  unfold Search getJSON
  dsimp only
  rw [h]

/-! ## Paging -/

/-- Claim C1, as the code has it: for every query and limit and every input page
`N` whose successor still fits in a `uint64`, `Search` waits once and fetches the
listing URL whose page number is `N+1`; the upstream page of `N+1` differs from
that of `N`, and is exactly one more when `N+2` fits as well. -/
theorem Search_requests_next_page (env : Env) (query : String) (page limit : Nat)
    (h : page + 1 < 2 ^ 64) :
    (Search env query page limit).2 =
        [Event.limiterWait,
         Event.GetJSON ("https://e621.net/posts.json?tags=" ++ env.QueryEscape query
           ++ "&page=" ++ Nat.repr (page + 1) ++ "&limit=" ++ Nat.repr limit)]
      ∧ Search.upstreamPage page = page + 1
      ∧ Search.upstreamPage (page + 1) ≠ Search.upstreamPage page
      ∧ (page + 2 < 2 ^ 64 → Search.upstreamPage (page + 1) = Search.upstreamPage page + 1) := by
  have hp : Search.upstreamPage page = page + 1 := Nat.mod_eq_of_lt h
  refine ⟨?_, hp, ?_, ?_⟩
  · rw [Search_trace, Search.url, hp]; rfl
  · rw [hp]
    unfold Search.upstreamPage
    by_cases h2 : page + 1 + 1 < 2 ^ 64
    · rw [Nat.mod_eq_of_lt h2]; omega
    · have h3 : page + 1 + 1 = 2 ^ 64 := by omega
      rw [h3, Nat.mod_self]; omega
  · intro h2
    rw [hp]
    exact Nat.mod_eq_of_lt h2

/-- Instance of C1 (amended) at page 0: upstream page 1. -/
theorem Search_requests_next_page_witness :
    (Search sampleEnvOk "cat" 0 10).2 =
        [Event.limiterWait,
         Event.GetJSON "https://e621.net/posts.json?tags=cat&page=1&limit=10"]
      ∧ Search.upstreamPage 0 = 1
      ∧ Search.upstreamPage 1 = 2 := by
  have h := Search_requests_next_page sampleEnvOk "cat" 0 10 (by decide)
  refine ⟨?_, h.2.1, ?_⟩
  · rw [h.1]; decide
  · have h2 := h.2.2.2 (by decide)
    rw [h.2.1] at h2
    exact h2

/-- Claim C1 as stated fails at the largest `uint64`: on input page `2^64 - 1`
the page number requested is 0, not `2^64`; and the pages requested on
`2^64 - 2` and on `2^64 - 1` do not differ by 1. -/
theorem Search_page_wraps_at_max :
    (Search sampleEnvOk "cat" (2 ^ 64 - 1) 10).2 =
        [Event.limiterWait,
         Event.GetJSON "https://e621.net/posts.json?tags=cat&page=0&limit=10"]
      ∧ Search.upstreamPage (2 ^ 64 - 1) ≠ (2 ^ 64 - 1) + 1
      ∧ Search.upstreamPage (2 ^ 64 - 1) ≠ Search.upstreamPage (2 ^ 64 - 2) + 1
      ∧ ¬ (∀ N : Nat, N < 2 ^ 64 → Search.upstreamPage N = N + 1) := by
  refine ⟨?_, by decide, by decide, ?_⟩
  · rw [Search_trace]; decide
  · intro hall
    exact absurd (hall (2 ^ 64 - 1) (by decide)) (by decide)

/-! ## Errors of the listing fetch -/

/-- Claim C2: when the listing fetch fails with an `HTTPError` of status 410,
`Search` returns the empty allocated slice, the count 0 and the nil error. -/
theorem Search_gone_is_empty (env : Env) (query : String) (page limit : Nat) (text : String)
    (h : env.GetJSONPosts (Search.url env query page limit)
      = Except.error (GoError.httpError 410 text)) :
    (Search env query page limit).1 = (Slice.vals [], 0, none) := by
  unfold Search getJSON
  dsimp only
  rw [h]
  simp [StatusGone]

/-- Instance of C2 in a world whose listing endpoint answers 410. -/
theorem Search_gone_is_empty_witness :
    (Search (sampleEnv (Except.error (GoError.httpError 410 "Gone"))
        (Except.error (GoError.other "unused")) (Except.error (GoError.other "unused")))
      "cat" 3 10).1 = (Slice.vals [], 0, none) :=
  Search_gone_is_empty _ "cat" 3 10 "Gone" rfl

/-- Claim C3: when the listing fetch fails with an error that is not an
`HTTPError` of status 410, `Search` returns the empty allocated slice, the
count 0 and that very error. -/
theorem Search_error_returned (env : Env) (query : String) (page limit : Nat) (err : GoError)
    (h : env.GetJSONPosts (Search.url env query page limit) = Except.error err)
    (hne : ∀ text, err ≠ GoError.httpError 410 text) :
    (Search env query page limit).1 = (Slice.vals [], 0, some err) := by
  unfold Search getJSON
  dsimp only
  rw [h]
  cases err with
  | httpError code text =>
    have hc : code ≠ StatusGone := by
      intro hc
      exact hne text (by rw [hc]; rfl)
    simp [hc]
  | other text => rfl

/-- Instance of C3 in a world whose listing endpoint answers 503. -/
theorem Search_error_returned_witness :
    (Search (sampleEnv (Except.error (GoError.httpError 503 "Service Unavailable"))
        (Except.error (GoError.other "unused")) (Except.error (GoError.other "unused")))
      "cat" 3 10).1 = (Slice.vals [], 0, some (GoError.httpError 503 "Service Unavailable")) :=
  Search_error_returned _ "cat" 3 10 _ rfl (by intro text h; cases h)

/-! ## The mapping loop -/

theorem Slice.toList_append {α : Type} (s : Slice α) (x : α) :
    (s.append x).toList = s.toList ++ [x] := rfl

/-- On records whose timestamps all parse, the loop appends one mapped post per
record, in order, and ends with the count 0 and the nil error. -/
theorem Search.loop_all_valid (env : Env) : ∀ (posts : List post) (acc : Slice Post),
    (∀ v ∈ posts, ∃ t, env.timeParse v.CreatedAt = Except.ok t) →
    ∃ ps, List.Forall₂ (Mapped env) posts ps
      ∧ (Search.loop env posts acc).1.toList = acc.toList ++ ps
      ∧ (Search.loop env posts acc).2 = (0, none) := by
  intro posts
  induction posts with
  | nil =>
    intro acc _
    exact ⟨[], List.Forall₂.nil, by simp [Search.loop], rfl⟩
  | cons v rest ih =>
    intro acc hv
    obtain ⟨t, ht⟩ := hv v (List.mem_cons_self v rest)
    obtain ⟨ps, hps, hl, he⟩ :=
      ih (acc.append (Search.mkPost v t)) (fun w hw => hv w (List.mem_cons_of_mem v hw))
    refine ⟨Search.mkPost v t :: ps, List.Forall₂.cons ⟨t, ht, rfl⟩ hps, ?_, ?_⟩
    · simp only [Search.loop, ht]
      rw [hl, Slice.toList_append]
      simp
    · simp only [Search.loop, ht]
      exact he

/-- The loop stops at the first record whose timestamp does not parse: it
returns the posts mapped from the records before it, and the parse error. -/
theorem Search.loop_first_invalid (env : Env) (bad : post) (rest : List post) (e : GoError)
    (hbad : env.timeParse bad.CreatedAt = Except.error e) :
    ∀ (pre : List post) (acc : Slice Post),
    (∀ v ∈ pre, ∃ t, env.timeParse v.CreatedAt = Except.ok t) →
    ∃ ps, List.Forall₂ (Mapped env) pre ps
      ∧ (Search.loop env (pre ++ bad :: rest) acc).1.toList = acc.toList ++ ps
      ∧ (Search.loop env (pre ++ bad :: rest) acc).2 = (0, some e) := by
  intro pre
  induction pre with
  | nil =>
    intro acc _
    refine ⟨[], List.Forall₂.nil, ?_, ?_⟩ <;> simp [Search.loop, hbad]
  | cons v pre ih =>
    intro acc hv
    obtain ⟨t, ht⟩ := hv v (List.mem_cons_self v pre)
    obtain ⟨ps, hps, hl, he⟩ :=
      ih (acc.append (Search.mkPost v t)) (fun w hw => hv w (List.mem_cons_of_mem v hw))
    have hc : (v :: pre) ++ bad :: rest = v :: (pre ++ bad :: rest) := rfl
    rw [hc]
    refine ⟨Search.mkPost v t :: ps, List.Forall₂.cons ⟨t, ht, rfl⟩ hps, ?_, ?_⟩
    · simp only [Search.loop, ht]
      rw [hl, Slice.toList_append]
      simp
    · simp only [Search.loop, ht]
      exact he

/-- A listing holding a record whose timestamp does not parse splits at the
first such record. -/
theorem first_invalid_split (env : Env) : ∀ posts : List post,
    (∃ v ∈ posts, ∃ e, env.timeParse v.CreatedAt = Except.error e) →
    ∃ pre bad rest e, posts = pre ++ bad :: rest
      ∧ (∀ v ∈ pre, ∃ t, env.timeParse v.CreatedAt = Except.ok t)
      ∧ env.timeParse bad.CreatedAt = Except.error e := by
  intro posts
  induction posts with
  | nil => rintro ⟨v, hv, _⟩; cases hv
  | cons w ws ih =>
    rintro ⟨v, hv, e, he⟩
    cases hw : env.timeParse w.CreatedAt with
    | error e0 => exact ⟨[], w, ws, e0, rfl, by simp, hw⟩
    | ok t =>
      have hvws : v ∈ ws := by
        rcases List.mem_cons.mp hv with h | h
        · subst h; rw [hw] at he; cases he
        · exact h
      obtain ⟨pre, bad, rest, e1, hsplit, hpre, hbad⟩ := ih ⟨v, hvws, e, he⟩
      refine ⟨w :: pre, bad, rest, e1, by rw [hsplit]; rfl, ?_, hbad⟩
      intro u hu
      rcases List.mem_cons.mp hu with h | h
      · subst h; exact ⟨t, hw⟩
      · exact hpre u h

/-- Whatever the listing, the posts the loop returns are the mapping, in order,
of an initial segment of the records. -/
theorem Search.loop_maps_initial (env : Env) : ∀ (posts : List post) (acc : Slice Post),
    ∃ pre rest ps, posts = pre ++ rest ∧ List.Forall₂ (Mapped env) pre ps
      ∧ (Search.loop env posts acc).1.toList = acc.toList ++ ps := by
  intro posts acc
  by_cases hb : ∃ v ∈ posts, ∃ e, env.timeParse v.CreatedAt = Except.error e
  · obtain ⟨pre, bad, rest, e, hsplit, hpre, hbad⟩ := first_invalid_split env posts hb
    obtain ⟨ps, hps, hl, _⟩ := Search.loop_first_invalid env bad rest e hbad pre acc hpre
    exact ⟨pre, bad :: rest, ps, hsplit, hps, by rw [hsplit]; exact hl⟩
  · have hall : ∀ v ∈ posts, ∃ t, env.timeParse v.CreatedAt = Except.ok t := by
      intro v hv
      cases hw : env.timeParse v.CreatedAt with
      | error e => exact absurd ⟨v, hv, e, hw⟩ hb
      | ok t => exact ⟨t, rfl⟩
    obtain ⟨ps, hps, hl, _⟩ := Search.loop_all_valid env posts acc hall
    exact ⟨posts, [], ps, by simp, hps, hl⟩

/-! ## Results of a fetched listing -/

/-- The Go parser and the grammar of RFC 3339 on some timestamps: they agree on
an ordinary timestamp, with or without a fraction and an offset, and on a string
that is no timestamp; they differ on a one-digit hour, on a comma before the
fraction, on a leap second and on lower-case letters. -/
theorem timeParseRFC3339_against_grammar :
    (timeParseRFC3339 "2020-01-02T03:04:05Z"
        = Except.ok { sec := 1577934245, nsec := 0, offset := 0 }
      ∧ validRFC3339 "2020-01-02T03:04:05Z" = true)
    ∧ (timeParseRFC3339 "2020-01-02T03:04:05.123-05:00"
        = Except.ok { sec := 1577952245, nsec := 123000000, offset := -18000 }
      ∧ validRFC3339 "2020-01-02T03:04:05.123-05:00" = true)
    ∧ ((∃ e, timeParseRFC3339 "yesterday" = Except.error e)
      ∧ validRFC3339 "yesterday" = false)
    ∧ ((∃ t, timeParseRFC3339 "2020-01-02T3:04:05Z" = Except.ok t)
      ∧ validRFC3339 "2020-01-02T3:04:05Z" = false)
    ∧ ((∃ t, timeParseRFC3339 "2020-01-02T03:04:05,5Z" = Except.ok t)
      ∧ validRFC3339 "2020-01-02T03:04:05,5Z" = false)
    ∧ ((∃ e, timeParseRFC3339 "1990-12-31T23:59:60Z" = Except.error e)
      ∧ validRFC3339 "1990-12-31T23:59:60Z" = true)
    ∧ ((∃ e, timeParseRFC3339 "2020-01-02t03:04:05z" = Except.error e)
      ∧ validRFC3339 "2020-01-02t03:04:05z" = true) :=
  ⟨⟨rfl, by decide⟩, ⟨rfl, by decide⟩, ⟨⟨_, rfl⟩, by decide⟩, ⟨⟨_, rfl⟩, by decide⟩,
   ⟨⟨_, rfl⟩, by decide⟩, ⟨⟨_, rfl⟩, by decide⟩, ⟨⟨_, rfl⟩, by decide⟩⟩

/-- Claim C4, as the code has it: when the listing is fetched and some record
has a timestamp that `time.Parse(time.RFC3339, ·)` rejects, the listing splits at
the first such record, and `Search` returns the error of that parse (non-nil),
the count 0, and exactly the posts mapped, in order, from the records before
it. -/
theorem Search_stops_at_invalid_timestamp (env : Env) (query : String) (page limit : Nat)
    (posts : List post)
    (hfetch : env.GetJSONPosts (Search.url env query page limit) = Except.ok posts)
    (hbad : ∃ v ∈ posts, ∃ e, env.timeParse v.CreatedAt = Except.error e) :
    ∃ pre bad rest e, posts = pre ++ bad :: rest
      ∧ (∀ v ∈ pre, ∃ t, env.timeParse v.CreatedAt = Except.ok t)
      ∧ env.timeParse bad.CreatedAt = Except.error e
      ∧ (Search env query page limit).1.2.2 = some e
      ∧ (Search env query page limit).1.2.1 = 0
      ∧ List.Forall₂ (Mapped env) pre (Search env query page limit).1.1.toList := by
  obtain ⟨pre, bad, rest, e, hsplit, hpre, hb⟩ := first_invalid_split env posts hbad
  obtain ⟨ps, hps, hl, he⟩ := Search.loop_first_invalid env bad rest e hb pre Slice.nil hpre
  rw [Search_of_ok env query page limit posts hfetch, hsplit]
  refine ⟨pre, bad, rest, e, rfl, hpre, hb, ?_, ?_, ?_⟩
  · rw [he]
  · rw [he]
  · rw [hl]; exact hps

/-- Instance of C4 (amended) on a listing of three records whose second
timestamp is rejected: one post comes back, with the parse error. -/
theorem Search_stops_at_invalid_timestamp_witness :
    (Search (sampleEnvListing sampleListingBad) "cat" 0 10).1 =
        (Slice.vals [Search.mkPost (samplePost 42 "s" "2020-01-02T03:04:05Z")
            { sec := 1577934245, nsec := 0, offset := 0 }], 0,
          some (GoError.other "parsing time: cannot parse as RFC3339"))
      ∧ ∃ pre bad rest e, sampleListingBad = pre ++ bad :: rest
        ∧ (∀ v ∈ pre, ∃ t, (sampleEnvListing sampleListingBad).timeParse v.CreatedAt
            = Except.ok t)
        ∧ (sampleEnvListing sampleListingBad).timeParse bad.CreatedAt = Except.error e
        ∧ (Search (sampleEnvListing sampleListingBad) "cat" 0 10).1.2.2 = some e
        ∧ (Search (sampleEnvListing sampleListingBad) "cat" 0 10).1.2.1 = 0
        ∧ List.Forall₂ (Mapped (sampleEnvListing sampleListingBad)) pre
            (Search (sampleEnvListing sampleListingBad) "cat" 0 10).1.1.toList :=
  ⟨by decide,
   Search_stops_at_invalid_timestamp (sampleEnvListing sampleListingBad) "cat" 0 10
    sampleListingBad rfl
    ⟨samplePost 43 "q" "yesterday", by decide, GoError.other "parsing time: cannot parse as RFC3339",
      rfl⟩⟩

/-- Claim C4 as stated fails where the Go parser accepts what RFC 3339 does not:
the timestamp "2020-01-02T3:04:05Z" has a one-digit hour, so it is not valid
RFC 3339, yet Go reads it as 03:04:05. On a listing whose second record carries
it, `Search` returns the nil error and all three posts, not an error and the one
post before that record. -/
theorem Search_accepts_one_digit_hour :
    validRFC3339 "2020-01-02T3:04:05Z" = false
      ∧ (∃ v ∈ listingOneDigitHour, validRFC3339 v.CreatedAt = false)
      ∧ timeParseRFC3339 "2020-01-02T3:04:05Z"
          = Except.ok { sec := 1577934245, nsec := 0, offset := 0 }
      ∧ (goEnvListing listingOneDigitHour).GetJSONPosts
            (Search.url (goEnvListing listingOneDigitHour) "cat" 0 10)
          = Except.ok listingOneDigitHour
      ∧ (Search (goEnvListing listingOneDigitHour) "cat" 0 10).1.2.2 = none
      ∧ (Search (goEnvListing listingOneDigitHour) "cat" 0 10).1.1.toList.map (fun p => p.ID)
          = ["42", "43", "44"] :=
  ⟨by decide, by decide, rfl, rfl, by decide, by decide⟩

/-- Claim C10, as the code has it: when the listing is fetched and
`time.Parse(time.RFC3339, ·)` accepts every timestamp, `Search` returns the nil
error, the count 0 and one post per record, in the upstream order, each built
from its own record: URL and ID from the decimal ID, the score, description and
source copied, the uploader as a decimal string, and the date parsed from the
record's timestamp. -/
theorem Search_maps_every_record (env : Env) (query : String) (page limit : Nat)
    (posts : List post)
    (hfetch : env.GetJSONPosts (Search.url env query page limit) = Except.ok posts)
    (hvalid : ∀ v ∈ posts, ∃ t, env.timeParse v.CreatedAt = Except.ok t) :
    (Search env query page limit).1.2.2 = none
      ∧ (Search env query page limit).1.2.1 = 0
      ∧ (Search env query page limit).1.1.toList.length = posts.length
      ∧ List.Forall₂
          (fun v p => p.URL = "https://e621.net/posts/" ++ Nat.repr v.ID
            ∧ p.ID = Nat.repr v.ID
            ∧ p.Score = v.Score.Total
            ∧ p.Uploader = Nat.repr v.UploaderID
            ∧ p.Description = v.Description
            ∧ p.Source = v.Source
            ∧ env.timeParse v.CreatedAt = Except.ok p.Date)
          posts (Search env query page limit).1.1.toList := by
  obtain ⟨ps, hps, hl, he⟩ := Search.loop_all_valid env posts Slice.nil hvalid
  rw [Search_of_ok env query page limit posts hfetch]
  have hl2 : (Search.loop env posts Slice.nil).1.toList = ps := by rw [hl]; rfl
  refine ⟨by rw [he], by rw [he], ?_, ?_⟩
  · rw [hl2]; exact hps.length_eq.symm
  · rw [hl2]
    refine hps.imp ?_
    rintro v p ⟨t, ht, rfl⟩
    exact ⟨rfl, rfl, rfl, rfl, rfl, rfl, ht⟩

/-- Instance of C10 (amended) on a listing of three records whose timestamps
are all accepted (score -3). -/
theorem Search_maps_every_record_witness :
    (Search (sampleEnvListing sampleListingGood) "cat" 0 10).1.2.2 = none
      ∧ (Search (sampleEnvListing sampleListingGood) "cat" 0 10).1.1.toList.map
          (fun p => (p.URL, p.ID, p.Score, p.Uploader))
        = [("https://e621.net/posts/42", "42", -3, "7"),
           ("https://e621.net/posts/43", "43", -3, "7"),
           ("https://e621.net/posts/44", "44", -3, "7")]
      ∧ (Search (sampleEnvListing sampleListingGood) "cat" 0 10).1.1.toList.length = 3 := by
  have h := Search_maps_every_record (sampleEnvListing sampleListingGood) "cat" 0 10
    sampleListingGood rfl (by
      intro v hv
      simp only [sampleListingGood, List.mem_cons, List.mem_singleton, List.not_mem_nil,
        or_false] at hv
      rcases hv with rfl | rfl | rfl <;> exact ⟨_, rfl⟩)
  exact ⟨h.1, by decide, h.2.2.1⟩

/-- Claim C10 as stated fails where the Go parser rejects what RFC 3339 allows:
the leap second "1990-12-31T23:59:60Z" is valid RFC 3339, yet Go refuses a
second of 60. On a listing of three records with valid RFC 3339 timestamps, the
second being that one, `Search` returns a non-nil error and one post, not the
nil error and three posts. -/
theorem Search_rejects_leap_second :
    (∀ v ∈ listingLeapSecond, validRFC3339 v.CreatedAt = true)
      ∧ listingLeapSecond.length = 3
      ∧ (∃ e, timeParseRFC3339 "1990-12-31T23:59:60Z" = Except.error e)
      ∧ (goEnvListing listingLeapSecond).GetJSONPosts
            (Search.url (goEnvListing listingLeapSecond) "cat" 0 10)
          = Except.ok listingLeapSecond
      ∧ (Search (goEnvListing listingLeapSecond) "cat" 0 10).1.2.2 ≠ none
      ∧ (Search (goEnvListing listingLeapSecond) "cat" 0 10).1.1.toList.map (fun p => p.ID)
          = ["42"] :=
  ⟨by decide, rfl, ⟨_, rfl⟩, rfl, by decide, by decide⟩

/-- Claim C5: every post returned by `Search` is mapped from its own record of
the listing, and its NSFW flag is false when the rating code is exactly "s" and
true for every other code. -/
theorem Search_NSFW_unless_safe (env : Env) (query : String) (page limit : Nat)
    (posts : List post)
    (hfetch : env.GetJSONPosts (Search.url env query page limit) = Except.ok posts) :
    ∃ pre rest, posts = pre ++ rest
      ∧ List.Forall₂
          (fun v p => Mapped env v p
            ∧ (v.Rating = "s" → p.NSFW = false) ∧ (v.Rating ≠ "s" → p.NSFW = true))
          pre (Search env query page limit).1.1.toList := by
  obtain ⟨pre, rest, ps, hsplit, hps, hl⟩ := Search.loop_maps_initial env posts Slice.nil
  rw [Search_of_ok env query page limit posts hfetch]
  have hl2 : (Search.loop env posts Slice.nil).1.toList = ps := by rw [hl]; rfl
  refine ⟨pre, rest, hsplit, ?_⟩
  rw [hl2]
  refine hps.imp ?_
  rintro v p ⟨t, ht, rfl⟩
  refine ⟨⟨t, ht, rfl⟩, ?_, ?_⟩
  · intro hs
    simp [Search.mkPost, hs]
  · intro hs
    simp [Search.mkPost, hs]

/-- Instance of C5 on records rated "s", "q" and "": flags false, true, true. -/
theorem Search_NSFW_unless_safe_witness :
    (Search (sampleEnvListing sampleListingGood) "cat" 0 10).1.1.toList.map (fun p => p.NSFW)
        = [false, true, true]
      ∧ ∃ pre rest, sampleListingGood = pre ++ rest
        ∧ List.Forall₂
            (fun v p => Mapped (sampleEnvListing sampleListingGood) v p
              ∧ (v.Rating = "s" → p.NSFW = false) ∧ (v.Rating ≠ "s" → p.NSFW = true))
            pre (Search (sampleEnvListing sampleListingGood) "cat" 0 10).1.1.toList :=
  ⟨by decide,
   Search_NSFW_unless_safe (sampleEnvListing sampleListingGood) "cat" 0 10 sampleListingGood rfl⟩

/-! ## Decimal identifiers -/

theorem digitChar_of_lt_ten (d : Nat) (h : d < 10) :
    (Nat.digitChar d).isDigit = true ∧ (Nat.digitChar d).toNat - '0'.toNat = d := by
  interval_cases d <;> decide

theorem toDigitsCore_onto (fuel : Nat) : ∀ (n : Nat) (ds : List Char),
    Nat.toDigitsCore 10 fuel n ds = Nat.toDigitsCore 10 fuel n [] ++ ds := by
  induction fuel with
  | zero => intro n ds; simp [Nat.toDigitsCore]
  | succ fuel ih =>
    intro n ds
    simp only [Nat.toDigitsCore]
    split
    · simp
    · rw [ih (n / 10) (_ :: ds), ih (n / 10) [_]]; simp

/-- With enough fuel the digits of `n` are a non-empty run of decimal digits
whose value, read from the left, is `n`. -/
theorem toDigitsCore_value (fuel : Nat) : ∀ n : Nat, n < fuel →
    Nat.toDigitsCore 10 fuel n [] ≠ [] ∧
    (Nat.toDigitsCore 10 fuel n []).all Char.isDigit = true ∧
    (Nat.toDigitsCore 10 fuel n []).foldl (fun n c => n * 10 + (c.toNat - '0'.toNat)) 0 = n := by
  induction fuel with
  | zero => intro n h; omega
  | succ fuel ih =>
    intro n h
    have hd := digitChar_of_lt_ten (n % 10) (Nat.mod_lt _ (by decide))
    simp only [Nat.toDigitsCore]
    split
    · refine ⟨by simp, by simp [hd.1], ?_⟩
      simp only [List.foldl_cons, List.foldl_nil, hd.2]
      omega
    · rw [toDigitsCore_onto]
      have hlt : n / 10 < fuel := by omega
      obtain ⟨_, h2, h3⟩ := ih (n / 10) hlt
      refine ⟨by simp, ?_, ?_⟩
      · simp [List.all_append, h2, hd.1]
      · rw [List.foldl_append, h3]
        simp only [List.foldl_cons, List.foldl_nil, hd.2]
        omega

/-- Reading the decimal rendering of `n` as a natural number gives `n` back. -/
theorem repr_toNat (n : Nat) : (Nat.repr n).toNat? = some n := by
  obtain ⟨h1, h2, h3⟩ := toDigitsCore_value (n + 1) n (Nat.lt_succ_self n)
  have he : (Nat.repr n).isEmpty = false := by
    rw [Bool.eq_false_iff]
    intro h
    rw [String.isEmpty_iff] at h
    apply h1
    have := congrArg String.data h
    simpa [Nat.repr, Nat.toDigits, List.asString] using this
  simp only [String.toNat?, String.isNat, he, String.all_eq, String.foldl_eq]
  simp only [Nat.repr, Nat.toDigits, List.asString]
  simp only [h2, Bool.not_false, Bool.and_self, if_true]
  exact congrArg some h3

theorem File_trace_start (env : Env) (id : String) :
    (File env id).2.take 2 = [Event.limiterWait, Event.GetJSON (File.url id)] := by
  unfold File getJSON
  dsimp only
  split
  · rfl
  · split <;> rfl

/-- Claim C6: every post returned by `Search` has as ID the decimal string of
its record's numeric ID (42 gives "42"); reading that string as a decimal number
gives the numeric ID back; and `File` called with that ID waits and then fetches
"https://e621.net/posts/<n>.json", which is the post's URL followed by
".json". -/
theorem Search_ID_roundtrip (env : Env) (query : String) (page limit : Nat)
    (posts : List post)
    (hfetch : env.GetJSONPosts (Search.url env query page limit) = Except.ok posts) :
    FormatUint 42 = "42"
      ∧ ∃ pre rest, posts = pre ++ rest
        ∧ List.Forall₂
            (fun v p => Mapped env v p
              ∧ p.ID = Nat.repr v.ID
              ∧ p.ID.toNat? = some v.ID
              ∧ (File env p.ID).2.take 2 =
                  [Event.limiterWait,
                   Event.GetJSON ("https://e621.net/posts/" ++ Nat.repr v.ID ++ ".json")]
              ∧ File.url p.ID = p.URL ++ ".json")
            pre (Search env query page limit).1.1.toList := by
  refine ⟨by decide, ?_⟩
  obtain ⟨pre, rest, ps, hsplit, hps, hl⟩ := Search.loop_maps_initial env posts Slice.nil
  rw [Search_of_ok env query page limit posts hfetch]
  have hl2 : (Search.loop env posts Slice.nil).1.toList = ps := by rw [hl]; rfl
  refine ⟨pre, rest, hsplit, ?_⟩
  rw [hl2]
  refine hps.imp ?_
  rintro v p ⟨t, ht, rfl⟩
  exact ⟨⟨t, ht, rfl⟩, rfl, repr_toNat v.ID, File_trace_start env _, rfl⟩

/-- Instance of C6 on a listing whose records have the IDs 42, 43 and 44. -/
theorem Search_ID_roundtrip_witness :
    (Search (sampleEnvListing sampleListingGood) "cat" 0 10).1.1.toList.map
        (fun p => (p.ID, p.URL, File.url p.ID))
      = [("42", "https://e621.net/posts/42", "https://e621.net/posts/42.json"),
         ("43", "https://e621.net/posts/43", "https://e621.net/posts/43.json"),
         ("44", "https://e621.net/posts/44", "https://e621.net/posts/44.json")]
      ∧ FormatUint 42 = "42"
      ∧ ∃ pre rest, sampleListingGood = pre ++ rest
        ∧ List.Forall₂
            (fun v p => Mapped (sampleEnvListing sampleListingGood) v p
              ∧ p.ID = Nat.repr v.ID
              ∧ p.ID.toNat? = some v.ID
              ∧ (File (sampleEnvListing sampleListingGood) p.ID).2.take 2 =
                  [Event.limiterWait,
                   Event.GetJSON ("https://e621.net/posts/" ++ Nat.repr v.ID ++ ".json")]
              ∧ File.url p.ID = p.URL ++ ".json")
            pre (Search (sampleEnvListing sampleListingGood) "cat" 0 10).1.1.toList :=
  ⟨by decide,
   Search_ID_roundtrip (sampleEnvListing sampleListingGood) "cat" 0 10 sampleListingGood rfl⟩

/-! ## The limiter -/

/-- Every run of `Search` respects the limiter. -/
theorem Search_rateLimited (env : Env) (query : String) (page limit : Nat) :
    rateLimited (Search env query page limit).2 = true := by
  rw [Search_trace]; rfl

/-- A run of `File` whose detail fetch fails respects the limiter. -/
theorem File_rateLimited_of_detail_error (env : Env) (id : String) (e : GoError)
    (h : env.GetJSONPost (File.url id) = Except.error e) :
    rateLimited (File env id).2 = true := by
  unfold File getJSON
  dsimp only
  rw [h]
  rfl

/-- A run of `File` whose detail fetch succeeds issues the stream fetch right
after the detail fetch, with no wait in between. -/
theorem File_not_rateLimited_of_detail_ok (env : Env) (id : String) (response : post)
    (h : env.GetJSONPost (File.url id) = Except.ok response) :
    (File env id).2 = [Event.limiterWait, Event.GetJSON (File.url id),
        Event.GetReadCloser response.File.URL]
      ∧ rateLimited (File env id).2 = false := by
  unfold File getJSON
  dsimp only
  rw [h]
  dsimp only
  split <;> exact ⟨rfl, rfl⟩

/-- Claim C7 fails on `File`: in a world where both fetches succeed, `File "42"`
waits once, fetches the detail record and then fetches the file stream with no
wait between the two requests. -/
theorem File_stream_fetch_without_wait :
    (File sampleEnvOk "42").2 =
        [Event.limiterWait, Event.GetJSON "https://e621.net/posts/42.json",
         Event.GetReadCloser "https://static1.e621.net/data/42.png"]
      ∧ rateLimited (File sampleEnvOk "42").2 = false
      ∧ (File sampleEnvOk "42").1 = (Slice.vals [{ conn := 1 }], none) := by
  decide

/-! ## Results of `File` and `Comments` -/

/-- Claim C8: when the detail fetch fails, or it succeeds and the stream fetch
fails, `File` returns that very error with the empty allocated (non-nil) slice;
when both succeed it returns the nil error and the slice holding exactly the
stream opened for the file URL of the detail record. -/
theorem File_results (env : Env) (id : String) :
    (∀ e, env.GetJSONPost (File.url id) = Except.error e →
        (File env id).1 = (Slice.vals [], some e) ∧ (File env id).1.1.isNil = false)
      ∧ (∀ response e, env.GetJSONPost (File.url id) = Except.ok response →
          env.GetReadCloser response.File.URL = Except.error e →
          (File env id).1 = (Slice.vals [], some e) ∧ (File env id).1.1.isNil = false)
      ∧ (∀ response stream, env.GetJSONPost (File.url id) = Except.ok response →
          env.GetReadCloser response.File.URL = Except.ok stream →
          (File env id).1 = (Slice.vals [stream], none)
            ∧ (File env id).1.1.toList.length = 1) := by
  refine ⟨?_, ?_, ?_⟩
  · intro e h
    unfold File getJSON
    dsimp only
    rw [h]
    exact ⟨rfl, rfl⟩
  · intro response e h1 h2
    unfold File getJSON
    dsimp only
    rw [h1]
    dsimp only
    rw [h2]
    exact ⟨rfl, rfl⟩
  · intro response stream h1 h2
    unfold File getJSON
    dsimp only
    rw [h1]
    dsimp only
    rw [h2]
    exact ⟨rfl, rfl⟩

/-- Instances of C8: a failing detail fetch, a failing stream fetch, and a run
in which both succeed. -/
theorem File_results_witness :
    (File (sampleEnv (Except.ok []) (Except.error (GoError.httpError 404 "Not Found"))
        (Except.ok { conn := 1 })) "42").1
        = (Slice.vals [], some (GoError.httpError 404 "Not Found"))
      ∧ (File (sampleEnv (Except.ok []) (Except.ok (samplePost 42 "s" "2020-01-02T03:04:05Z"))
          (Except.error (GoError.other "connection reset"))) "42").1
        = (Slice.vals [], some (GoError.other "connection reset"))
      ∧ (File sampleEnvOk "42").1 = (Slice.vals [{ conn := 1 }], none) :=
  ⟨((File_results _ "42").1 _ rfl).1,
   ((File_results _ "42").2.1 _ _ rfl rfl).1,
   ((File_results sampleEnvOk "42").2.2 _ _ rfl rfl).1⟩

/-- Claim C9: for every id, the empty string included, `Comments` returns an
empty slice and the nil error, and makes no outside call: no fetch and no wait
on the limiter. -/
theorem Comments_empty_without_calls (Comment : Type) (id : String) :
    (Comments Comment id).1.1.toList = []
      ∧ (Comments Comment id).1.2 = none
      ∧ (Comments Comment id).2 = []
      ∧ (Comments Comment "").1 = (Slice.vals [], none)
      ∧ (Comments Comment "").2 = [] :=
  ⟨rfl, rfl, rfl, rfl, rfl⟩

end E621
